import Mathlib

/-!
Shallow embedding of the circles backend (`src/main.py`) and proofs of the
specification claims about it.

Conventions of the embedding:
* Mongo `ObjectId`s are modelled as `Nat`.
* `datetime` values are modelled as `Int` timestamps (only comparisons and
  equality matter to the code under study).
* Python strings that are only carried around and compared are `String`;
  tag strings, whose trimming/lowercasing is under study, are `List Char`
  (a Python `str` is exactly a sequence of code points).
* A Mongo document field that may be absent is an `Option`; a raised
  `HTTPException` is an `Except.error`; database writes become explicit
  state passing (each endpoint returns the updated document(s)).
-/

namespace Circles

abbrev UserId := Nat
abbrev Time := Int
abbrev PyStr := List Char

/-- `RoleEnum` from `src/main.py`. -/
inductive Role
  | member
  | moderator
  | admin
deriving DecidableEq, Repr

/-- `PostTypeEnum` from `src/main.py`. -/
inductive PostType
  | standard
  | yt_playlist
  | poll
  | wishlist
  | image
  | spotify_playlist
deriving DecidableEq, Repr

/-- `UserInDB` (the authenticated actor identity; credential hash irrelevant). -/
structure UserInDB where
  id : UserId
  username : String
deriving DecidableEq, Repr

/-- A member record embedded in a circle document (`CircleMember`). -/
structure Membership where
  user_id : UserId
  username : String
  role : Role
deriving DecidableEq, Repr

/-- A circle document (fields relevant to the claims). -/
structure Circle where
  id : Nat
  name : String
  owner_id : UserId
  is_public : Bool
  members : List Membership
deriving DecidableEq, Repr

/-- The errors raised via `HTTPException` on the modelled paths. -/
inductive ApiError
  | unauthorized (detail : String)
  | forbidden (detail : String)
  | notFound (detail : String)
  | badRequest (detail : String)
  | keyError
deriving DecidableEq, Repr

/--
`check_circle_membership(current_user, circle)` from `src/main.py`
(lines 710-729).  The owner self-heals: if absent from `members`, an admin
membership record is `$addToSet`-appended; any other actor must already be
a member, otherwise a 403 is raised.  The returned circle is the (possibly
updated) document.
-/
def check_circle_membership (current_user : UserInDB) (circle : Circle) :
    Except ApiError Circle :=
  if circle.owner_id = current_user.id then
    if circle.members.any (fun m => m.user_id = current_user.id) then
      .ok circle
    else
      .ok { circle with
            members := circle.members ++
              [{ user_id := current_user.id, username := current_user.username,
                 role := Role.admin }] }
  else if circle.members.any (fun m => m.user_id = current_user.id) then
    .ok circle
  else
    .error (.forbidden "You are not a member of this circle.")

end Circles

namespace Circles

/-- The role the circle's member list currently assigns to a user id
(first matching entry, as `next(...)` does in the source). -/
def roleOf (circle : Circle) (uid : UserId) : Option Role :=
  (circle.members.find? (fun m => m.user_id = uid)).map (·.role)

/-- Mongo's positional update
`{"members.user_id": uid} -> {"$set": {"members.$.role": r}}`: the first
member record matching the user id gets the new role. -/
def setMemberRoleFirst (uid : UserId) (new_role : Role) :
    List Membership → List Membership
  | [] => []
  | m :: ms =>
    if m.user_id = uid then { m with role := new_role } :: ms
    else m :: setMemberRoleFirst uid new_role ms

/-- `get_circle_and_user_role` from `src/main.py` (lines 731-736): the
actor must appear in the member list; their current role is returned. -/
def get_circle_and_user_role (circle : Circle) (current_user : UserInDB) :
    Except ApiError (Circle × Role) :=
  match circle.members.find? (fun m => m.user_id = current_user.id) with
  | none => .error (.forbidden "You are not a member of this circle.")
  | some m => .ok (circle, m.role)

/-- `update_circle_member_role` from `src/main.py` (lines 1554-1572):
admins may set any role except moving the owner away from admin;
moderators may not touch admins/moderators nor grant those roles;
plain members are always denied. -/
def update_circle_member_role (current_user : UserInDB) (target_user_id : UserId)
    (new_role : Role) (circle : Circle) : Except ApiError Circle :=
  match get_circle_and_user_role circle current_user with
  | .error e => .error e
  | .ok (c, user_role) =>
    match c.members.find? (fun m => m.user_id = target_user_id) with
    | none => .error (.notFound "Member not found in this circle.")
    | some target_member =>
      match user_role with
      | .admin =>
        if target_user_id = c.owner_id ∧ new_role ≠ .admin then
          .error (.forbidden "The circle owner's role cannot be changed.")
        else
          .ok { c with
                members := setMemberRoleFirst target_user_id new_role c.members }
      | .moderator =>
        if (target_member.role = .admin ∨ target_member.role = .moderator) ∨
            (new_role = .admin ∨ new_role = .moderator) then
          .error (.forbidden "Moderators can only manage members.")
        else
          .ok { c with
                members := setMemberRoleFirst target_user_id new_role c.members }
      | .member =>
        .error (.forbidden "You do not have permission to manage roles.")

/-- The code points Python's `str.strip()` removes (ASCII whitespace:
space, tab, newline, vertical tab, form feed, carriage return). -/
def pyIsSpace (c : Char) : Bool :=
  c.toNat = 32 || c.toNat = 9 || c.toNat = 10 ||
  c.toNat = 11 || c.toNat = 12 || c.toNat = 13

/-- Python `str.strip()`: drop leading and trailing whitespace. -/
def pyStrip (s : PyStr) : PyStr :=
  ((s.dropWhile pyIsSpace).reverse.dropWhile pyIsSpace).reverse

/-- Python `str.lower()` on the ASCII range (as in the tags under study). -/
def pyLower (s : PyStr) : PyStr := s.map Char.toLower

/-- Tag canonicalization shared by `PostCreate.validate_post_content`
(line 444) and `update_post` (line 2030):
`sorted(set(tag.strip().lower() for tag in tags if tag.strip()))`. -/
def normalizeTags (tags : List PyStr) : List PyStr :=
  List.insertionSort (· ≤ ·)
    (((tags.filter (fun t => !(pyStrip t).isEmpty)).map
        (fun t => pyLower (pyStrip t))).dedup)

/-- `YouTubeVideo` payload. -/
structure YouTubeVideo where
  id : String
  title : String
  imageSrc : String
deriving DecidableEq, Repr

/-- `PlaylistData` payload. -/
structure PlaylistData where
  name : String
  videos : List YouTubeVideo
deriving DecidableEq, Repr

/-- A poll option as submitted (`PollOption`). -/
structure PollOptionIn where
  text : String
deriving DecidableEq, Repr

/-- `PollData` payload as submitted. -/
structure PollDataIn where
  question : String
  options : List PollOptionIn
deriving DecidableEq, Repr

/-- `ImageData` payload. -/
structure ImageData where
  url : String
  public_id : String
  height : Int
  width : Int
  caption : Option String
deriving DecidableEq, Repr

/-- `WishlistItem` payload. -/
structure WishlistItem where
  url : String
  title : String
  description : Option String
  image : Option String
deriving DecidableEq, Repr

/-- `SpotifyPlaylistData` payload. -/
structure SpotifyPlaylistData where
  playlist_name : String
  embed_url : String
  spotify_url : String
  playlist_art_url : Option String
deriving DecidableEq, Repr

/-- `PostCreate`, the submission model of `src/main.py` (lines 411-424). -/
structure PostCreate where
  post_type : PostType := .standard
  text : Option String := none
  link : Option String := none
  tags : List PyStr := []
  playlist_data : Option PlaylistData := none
  poll_data : Option PollDataIn := none
  wishlist_data : Option (List WishlistItem) := none
  images_data : Option (List ImageData) := none
  poll_duration_hours : Option Int := none
  spotify_playlist_data : Option SpotifyPlaylistData := none
  is_chat_enabled : Bool := false
  chat_participant_ids : Option (List UserId) := none
deriving DecidableEq, Repr

/-- Python truthiness of an `Optional[str]`: `None` and `""` are falsy. -/
def optStrFalsy : Option String → Bool
  | none => true
  | some s => s.isEmpty

/-- Python truthiness of an `Optional[list]`: `None` and `[]` are falsy. -/
def optListFalsy {α : Type} : Option (List α) → Bool
  | none => true
  | some l => l.isEmpty

/-- The yt-playlist rejection condition:
`not playlist_data or not playlist_data.name or not playlist_data.videos`. -/
def ytPlaylistInvalid (p : PostCreate) : Bool :=
  match p.playlist_data with
  | none => true
  | some pl => pl.name.isEmpty || pl.videos.isEmpty

/-- The poll duration rejection condition:
`poll_duration_hours is None or poll_duration_hours <= 0`. -/
def pollDurationInvalid : Option Int → Bool
  | none => true
  | some d => decide (d ≤ 0)

/--
`PostCreate.validate_post_content` from `src/main.py` (lines 426-445):
per-type payload checks (each `if` in the source is guarded by a distinct
`post_type`, so the raise-in-sequence order is an if-chain), then tag
canonicalization on the accepted submission.
-/
def validate_post_content (p : PostCreate) : Except String PostCreate :=
  if p.post_type == .standard && optStrFalsy p.text && optStrFalsy p.link then
    .error "A standard post must contain either text or a link."
  else if p.post_type == .yt_playlist && ytPlaylistInvalid p then
    .error "A YouTube playlist post must contain a name and at least one video."
  else if p.post_type == .poll && p.poll_data.isNone then
    .error "A poll post must contain poll_data."
  else if p.post_type == .poll && pollDurationInvalid p.poll_duration_hours then
    .error "A poll must have a valid duration."
  else if p.post_type == .wishlist && optListFalsy p.wishlist_data then
    .error "A wishlist post must contain at least one item."
  else if p.post_type == .image && optListFalsy p.images_data &&
      optStrFalsy p.link then
    .error "An image post must contain image_data from an upload or a direct link."
  else if p.post_type == .spotify_playlist && optStrFalsy p.link &&
      p.spotify_playlist_data.isNone then
    .error "A Spotify playlist post must contain a link."
  else
    .ok { p with tags := normalizeTags p.tags }

/-- The constraints Pydantic enforces on a poll submission at parse time,
before `validate_post_content` can run: question of 1-280 characters and
2-10 options of 1-100 characters each (`PollData`, lines 374-379). -/
def pydanticPollValid (p : PostCreate) : Prop :=
  ∀ pd ∈ p.poll_data,
    (1 ≤ pd.question.length ∧ pd.question.length ≤ 280) ∧
    (2 ≤ pd.options.length ∧ pd.options.length ≤ 10) ∧
    ∀ o ∈ pd.options, 1 ≤ o.text.length ∧ o.text.length ≤ 100

/-- A stored poll option: text plus the raw vote set (list of user ids). -/
structure PollOption where
  text : String
  votes : List UserId
deriving DecidableEq, Repr

/-- Stored `poll_data` of a post document. -/
structure PollData where
  question : String
  options : List PollOption
deriving DecidableEq, Repr

/-- The `content` sub-document of a stored post. -/
structure Content where
  post_type : PostType
  text : Option String := none
  link : Option String := none
  tags : List PyStr := []
  playlist_data : Option PlaylistData := none
  poll_data : Option PollData := none
  wishlist_data : Option (List WishlistItem) := none
  images_data : Option (List ImageData) := none
  spotify_playlist_data : Option SpotifyPlaylistData := none
  expires_at : Option Time := none
deriving DecidableEq, Repr

/-- One `{user_id, seen_at}` record of `seen_by_details`. -/
structure SeenRecord where
  user_id : UserId
  seen_at : Time
deriving DecidableEq, Repr

/-- One `{user_id, username}` record of `chat_participants`. -/
structure ChatParticipantDoc where
  user_id : UserId
  username : String
deriving DecidableEq, Repr

/-- One entry of the append-only `chat_messages` sequence. -/
structure ChatMessage where
  id : Nat
  sender_id : UserId
  sender_username : String
  content : String
  timestamp : Time
deriving DecidableEq, Repr

/-- A stored post document. `chat_participants = none` models the field
being absent from the document. -/
structure Post where
  id : Nat
  circle_id : Nat
  author_id : UserId
  author_username : String
  content : Content
  created_at : Time
  seen_by_details : List SeenRecord
  comment_count : Int
  is_chat_enabled : Bool
  chat_participants : Option (List ChatParticipantDoc) := none
  chat_messages : List ChatMessage := []
deriving DecidableEq, Repr

/-- The `$pull` loop of `vote_on_poll` (lines 1968-1972): remove the voter
from every option's vote set. -/
def pullVotes (uid : UserId) (options : List PollOption) : List PollOption :=
  options.map (fun o => { o with votes := o.votes.filter (fun v => v ≠ uid) })

/-- The `$addToSet` of `vote_on_poll` (lines 1974-1977): add the voter to
the vote set of option `idx` if not already present. -/
def addVoteAt (uid : UserId) : Nat → List PollOption → List PollOption
  | _, [] => []
  | 0, o :: os =>
    { o with votes := if uid ∈ o.votes then o.votes else o.votes ++ [uid] } :: os
  | n + 1, o :: os => o :: addVoteAt uid n os

/-- `vote_on_poll` from `src/main.py` (lines 1947-1992): type gate,
membership gate, expiry gate, bounds gate, then pull-everywhere and
add-to-chosen. The returned pair is the endpoint outcome plus the final
state of the post document; every raise happens before the first write, so
on error the post passes through unchanged. Reading the options of a poll
post that has no `poll_data` would be a Python `KeyError`; that is
modelled as `ApiError.keyError`. -/
def vote_on_poll (now : Time) (current_user : UserInDB) (circle : Circle)
    (post : Post) (option_index : Int) : Except ApiError Unit × Post :=
  if post.content.post_type ≠ .poll then
    (.error (.badRequest "This post is not a poll."), post)
  else
    match check_circle_membership current_user circle with
    | .error e => (.error e, post)
    | .ok _ =>
      let expired := match post.content.expires_at with
        | some e => decide (now > e)
        | none => false
      if expired then
        (.error (.forbidden
          "This poll has closed and is no longer accepting votes."), post)
      else
        match post.content.poll_data with
        | none => (.error .keyError, post)
        | some pd =>
          if 0 ≤ option_index ∧ option_index < pd.options.length then
            (.ok (), { post with content := { post.content with
                poll_data := some { pd with
                  options := addVoteAt current_user.id option_index.toNat
                    (pullVotes current_user.id pd.options) } } })
          else
            (.error (.badRequest "Invalid poll option index."), post)

/-- `mark_post_as_seen` from `src/main.py` (lines 1923-1931): membership
gate, then `$pull` of the viewer's seen record followed by `$addToSet` of
a fresh one. -/
def mark_post_as_seen (now : Time) (current_user : UserInDB) (circle : Circle)
    (post : Post) : Except ApiError Unit × Post :=
  match check_circle_membership current_user circle with
  | .error e => (.error e, post)
  | .ok _ =>
    let pulled := post.seen_by_details.filter
      (fun r => r.user_id ≠ current_user.id)
    let seen_record : SeenRecord :=
      { user_id := current_user.id, seen_at := now }
    (.ok (), { post with seen_by_details :=
        if seen_record ∈ pulled then pulled else pulled ++ [seen_record] })

/-- A comment document as inserted by `create_comment_on_post`. -/
structure CommentDoc where
  post_id : Nat
  post_author_id : UserId
  commenter_id : UserId
  commenter_username : String
  content : String
  created_at : Time
  thread_user_id : UserId
deriving DecidableEq, Repr

/-- `create_comment_on_post` from `src/main.py` (lines 2108-2161):
membership gate, the author-thread rules, comment insertion, then the one
post update `{"$inc": {"comment_count": 1},
"$pull": {"seen_by_details": {"user_id": post.author_id}}}`. -/
def create_comment_on_post (now : Time) (current_user : UserInDB)
    (circle : Circle) (post : Post) (content : String)
    (thread_user_id : Option UserId) : Except ApiError CommentDoc × Post :=
  match check_circle_membership current_user circle with
  | .error e => (.error e, post)
  | .ok _ =>
    let is_author := current_user.id = post.author_id
    let threadResult : Except ApiError UserId :=
      if is_author then
        match thread_user_id with
        | none => .error (.forbidden
            "Post authors can only comment by replying to another user's thread.")
        | some tid =>
          if tid = current_user.id then
            .error (.forbidden "Post authors cannot reply to their own comments.")
          else
            .ok tid
      else
        .ok current_user.id
    match threadResult with
    | .error e => (.error e, post)
    | .ok thread_id =>
      (.ok { post_id := post.id, post_author_id := post.author_id,
             commenter_id := current_user.id,
             commenter_username := current_user.username,
             content := content, created_at := now,
             thread_user_id := thread_id },
       { post with
         comment_count := post.comment_count + 1,
         seen_by_details := post.seen_by_details.filter
           (fun r => r.user_id ≠ post.author_id) })

/-- The outward per-option tally `{text, votes: count}` (line 767). -/
structure PollOptionOut where
  text : String
  votes : Nat
deriving DecidableEq, Repr

/-- `poll_results` as computed by the aggregation pipeline (lines 762-774). -/
structure PollResults where
  total_votes : Nat
  options : List PollOptionOut
  user_voted_index : Int
  is_expired : Bool
  expires_at : Option Time
deriving DecidableEq, Repr

/-- The `poll_results` value for a viewer: vote totals per option,
`$indexOfArray` of the viewer's option (`-1` when absent), expiry flag.
A missing `expires_at` compares below a date under BSON ordering, so
`$gt [now, missing]` is true. -/
def mkPollResults (now : Time) (uid : UserId) (c : Content) : PollResults :=
  let opts := (c.poll_data.map (·.options)).getD []
  { total_votes := (opts.map (fun o => o.votes.length)).sum
    options := opts.map (fun o => { text := o.text, votes := o.votes.length })
    user_voted_index :=
      match opts.findIdx? (fun o => uid ∈ o.votes) with
      | some i => (i : Int)
      | none => -1
    is_expired := match c.expires_at with
      | some e => decide (now > e)
      | none => true
    expires_at := c.expires_at }

/-- The final `$project` stage removes the raw vote sets from the outward
content (`"content.poll_data.options.votes": 0`); removal of the key is
modelled as emptying each vote set. -/
def scrubContent (c : Content) : Content :=
  { c with poll_data := (c.poll_data.map (fun pd => { pd with
      options := pd.options.map (fun o => { o with votes := [] }) })) }

/-- The post document as shaped by `_get_posts_aggregation_pipeline` plus
the `PostOut` model: exactly the fields `PostOut` keeps. An `Option` field
set to `none` models an omitted/defaulted field. -/
structure EnrichedPost where
  id : Nat
  circle_id : Nat
  circle_name : String
  author_id : UserId
  author_username : String
  content : Content
  created_at : Time
  seen_by_count : Nat
  is_seen_by_user : Bool
  poll_results : Option PollResults
  seen_by_user_objects : List String
  comment_count : Int
  is_chat_enabled : Bool
  chat_participants : Option (List ChatParticipantDoc)
deriving DecidableEq, Repr

/-- One document through `_get_posts_aggregation_pipeline` from
`src/main.py` (lines 744-797) followed by the `PostOut` projection, as
used by `get_circle_feed`. The viewer-relative `$addFields` stage
(`is_seen_by_user`, `poll_results`, the `chat_participants` scoping
condition with its `$$REMOVE` branch) is appended only `if current_user:`;
for a viewer-less read that whole stage is skipped, and the final
`$project` does not remove `chat_participants`, so the stored field passes
through. -/
def composePost (now : Time) (current_user : Option UserInDB)
    (users : List UserInDB) (circle_name : String) (post : Post) :
    EnrichedPost :=
  let base : EnrichedPost :=
    { id := post.id
      circle_id := post.circle_id
      circle_name := circle_name
      author_id := post.author_id
      author_username := post.author_username
      content := scrubContent post.content
      created_at := post.created_at
      seen_by_count := post.seen_by_details.length
      is_seen_by_user := false
      poll_results := none
      seen_by_user_objects := (post.seen_by_details.take 4).filterMap
        (fun r => (users.find? (fun u => u.id = r.user_id)).map (·.username))
      comment_count := post.comment_count
      is_chat_enabled := post.is_chat_enabled
      chat_participants := post.chat_participants }
  match current_user with
  | none => base
  | some u =>
    { base with
      is_seen_by_user := post.seen_by_details.any (fun r => r.user_id = u.id)
      poll_results :=
        if post.content.post_type = .poll then
          some (mkPollResults now u.id post.content)
        else
          none
      chat_participants :=
        if post.is_chat_enabled ∧
            u.id ∈ ((post.chat_participants.getD []).map (·.user_id)) then
          post.chat_participants
        else
          none }

/-- The tag-filter parsing of `get_circle_feed` (lines 1775-1778):
`[t.strip().lower() for t in tags.split(",") if t.strip()]`. -/
def parseTagFilter : Option PyStr → List PyStr
  | none => []
  | some s => ((s.splitOn ',').filter (fun t => !(pyStrip t).isEmpty)).map
      (fun t => pyLower (pyStrip t))

/-- The feed `$match` stage: owning circle plus, when a tag filter was
given, `{"content.tags": {"$all": tag_list}}`. -/
def feedMatch (circle_id : Nat) (tag_list : List PyStr) (p : Post) : Bool :=
  p.circle_id = circle_id &&
    (tag_list.isEmpty || tag_list.all (fun t => t ∈ p.content.tags))

/-- `{"$sort": {"created_at": DESCENDING}}`. -/
def sortNewestFirst (posts : List Post) : List Post :=
  List.insertionSort (fun a b => b.created_at ≤ a.created_at) posts

/-- `get_circle_feed` from `src/main.py` (lines 1754-1789): visibility
gate (a private circle rejects anonymous viewers and non-members), tag
filter, total count, sort/skip/limit, per-viewer enrichment, and
`has_more = (skip + len(returned)) < total`. -/
def get_circle_feed (now : Time) (users : List UserInDB) (posts : List Post)
    (circle : Circle) (skip limit : Nat) (tags : Option PyStr)
    (current_user : Option UserInDB) :
    Except ApiError (List EnrichedPost × Bool) :=
  let gate : Except ApiError Unit :=
    if circle.is_public then .ok ()
    else
      match current_user with
      | none => .error (.unauthorized
          "You must be logged in to view this private circle.")
      | some u => (check_circle_membership u circle).map (fun _ => ())
  match gate with
  | .error e => .error e
  | .ok _ =>
    let tag_list := parseTagFilter tags
    let matched := posts.filter (feedMatch circle.id tag_list)
    let total := matched.length
    let page := ((sortNewestFirst matched).drop skip).take limit
    let out := page.map (composePost now current_user users circle.name)
    .ok (out, decide (skip + out.length < total))

/-- The two response shapes of `get_circle_details`:
`CircleManagementOut` carries the full member list, `CircleOut` only the
aggregate count. -/
inductive CircleDetails
  | management (member_count : Nat) (user_role : Role)
      (members : List Membership)
  | plain (member_count : Nat) (user_role : Option Role)
deriving DecidableEq, Repr

/-- A concrete two-member private circle for concrete evaluations:
alice (id 1) owns it as admin, bob (id 2) is a plain member. -/
def circleAB : Circle :=
  { id := 3, name := "c", owner_id := 1, is_public := false,
    members := [⟨1, "alice", Role.admin⟩, ⟨2, "bob", Role.member⟩] }

/-- A concrete 2-option poll post in `circleAB` (expiry at time 100) on
which bob (id 2) has already voted option 0. -/
def pollPostVoted : Post :=
  { id := 10, circle_id := 3, author_id := 1, author_username := "alice",
    content := { post_type := .poll,
                 poll_data := some ⟨"q", [⟨"a", [2]⟩, ⟨"b", []⟩]⟩,
                 expires_at := some 100 },
    created_at := 0, seen_by_details := [], comment_count := 0,
    is_chat_enabled := false }

/-- A concrete standard post of alice in `circleAB` with existing seen
records for alice (id 1) and a departed user (id 3). -/
def seenPost : Post :=
  { id := 11, circle_id := 3, author_id := 1, author_username := "alice",
    content := { post_type := .standard, text := some "hi" },
    created_at := 0, seen_by_details := [⟨1, 4⟩, ⟨3, 6⟩], comment_count := 0,
    is_chat_enabled := false }

/-- A concrete public circle owned by alice (admin) with plain member bob. -/
def publicCircle : Circle :=
  { id := 5, name := "pub", owner_id := 1, is_public := true,
    members := [⟨1, "alice", Role.admin⟩, ⟨2, "bob", Role.member⟩] }

/-- A chat-enabled post of alice in `publicCircle` whose stored participant
set is just alice. -/
def chatPost : Post :=
  { id := 20, circle_id := 5, author_id := 1, author_username := "alice",
    content := { post_type := .standard, text := some "hi" },
    created_at := 0, seen_by_details := [], comment_count := 0,
    is_chat_enabled := true,
    chat_participants := some [⟨1, "alice"⟩] }

/-- The same poll post with no votes cast yet. -/
def pollPostFresh : Post :=
  { id := 10, circle_id := 3, author_id := 1, author_username := "alice",
    content := { post_type := .poll,
                 poll_data := some ⟨"q", [⟨"a", []⟩, ⟨"b", []⟩]⟩,
                 expires_at := some 100 },
    created_at := 0, seen_by_details := [], comment_count := 0,
    is_chat_enabled := false }

/-- `get_circle_details` from `src/main.py` (lines 1450-1507): a private
circle requires a member viewer (401 anonymous, 403 non-member); a viewer
whose role is admin or moderator receives the full member list, every
other viewer only the member count. -/
def get_circle_details (current_user : Option UserInDB) (circle : Circle) :
    Except ApiError CircleDetails :=
  let member_info := current_user.bind
    (fun u => circle.members.find? (fun m => m.user_id = u.id))
  let user_role := member_info.map (·.role)
  if !circle.is_public && current_user.isNone then
    .error (.unauthorized "You must be logged in to view this private circle.")
  else if !circle.is_public && user_role.isNone then
    .error (.forbidden "You are not a member of this circle.")
  else
    match user_role with
    | some Role.admin =>
      .ok (.management circle.members.length Role.admin circle.members)
    | some Role.moderator =>
      .ok (.management circle.members.length Role.moderator circle.members)
    | r => .ok (.plain circle.members.length r)

end Circles

namespace Circles

theorem mem_any_of_find? {l : List Membership} {uid : UserId} {m : Membership}
    (h : l.find? (fun m => m.user_id = uid) = some m) :
    l.any (fun m => m.user_id = uid) = true := by
  have := List.find?_some h
  exact List.any_eq_true.mpr ⟨m, List.mem_of_find?_eq_some h, this⟩

/-- **C3.** For every circle, the authorization check invoked with the
circle's owner as actor always succeeds; if the owner is absent from the
member list it appends the membership record `{user_id := owner, role := admin}`,
and repeating the check afterwards succeeds returning the same circle, so no
second entry is ever added. -/
theorem owner_check_self_heals (u : UserInDB) (c : Circle)
    (hown : c.owner_id = u.id) :
    ∃ c', check_circle_membership u c = .ok c' ∧
      (c'.members.any (fun m => m.user_id = u.id)) = true ∧
      ((c.members.any (fun m => m.user_id = u.id)) = false →
        c'.members = c.members ++
          [{ user_id := u.id, username := u.username, role := Role.admin }]) ∧
      check_circle_membership u c' = .ok c' := by
  by_cases hmem : c.members.any (fun m => m.user_id = u.id) = true
  · refine ⟨c, ?_, hmem, ?_, ?_⟩
    · unfold check_circle_membership
      rw [if_pos hown, if_pos hmem]
    · intro hfalse; rw [hmem] at hfalse; cases hfalse
    · unfold check_circle_membership
      rw [if_pos hown, if_pos hmem]
  · refine ⟨⟨c.id, c.name, c.owner_id, c.is_public,
        c.members ++ [⟨u.id, u.username, Role.admin⟩]⟩,
      ?_, ?_, fun _ => rfl, ?_⟩
    · unfold check_circle_membership
      rw [if_pos hown, if_neg hmem]
    · simp
    · have h2 : ((c.members ++
          ([⟨u.id, u.username, Role.admin⟩] : List Membership)).any
            (fun m => m.user_id = u.id)) = true := by
        simp
      unfold check_circle_membership
      rw [if_pos hown, if_pos h2]

/-- Witness for C3: a concrete circle whose member list does not yet contain
its owner. -/
theorem owner_check_self_heals_witness :
    ({ id := 7, name := "c", owner_id := 1, is_public := false,
       members := [] } : Circle).owner_id = (⟨1, "alice"⟩ : UserInDB).id ∧
    ∃ c', check_circle_membership ⟨1, "alice"⟩
        { id := 7, name := "c", owner_id := 1, is_public := false,
          members := [] } = .ok c' ∧
      (c'.members.any (fun m => m.user_id = 1)) = true ∧
      ((([] : List Membership).any (fun m => m.user_id = 1)) = false →
        c'.members = [] ++
          [{ user_id := 1, username := "alice", role := Role.admin }]) ∧
      check_circle_membership ⟨1, "alice"⟩ c' = .ok c' :=
  ⟨rfl, owner_check_self_heals ⟨1, "alice"⟩
    { id := 7, name := "c", owner_id := 1, is_public := false, members := [] }
    rfl⟩

theorem find?_setMemberRoleFirst (uid : UserId) (r : Role) (l : List Membership)
    (m : Membership) (h : l.find? (fun m => m.user_id = uid) = some m) :
    (setMemberRoleFirst uid r l).find? (fun m => m.user_id = uid) =
      some { m with role := r } := by
  induction l with
  | nil => simp at h
  | cons a as ih =>
    by_cases ha : a.user_id = uid
    · rw [List.find?_cons_of_pos _ (by simpa using ha)] at h
      cases h
      unfold setMemberRoleFirst
      rw [if_pos ha]
      exact List.find?_cons_of_pos _ (by simpa using ha)
    · rw [List.find?_cons_of_neg _ (by simpa using ha)] at h
      unfold setMemberRoleFirst
      rw [if_neg ha, List.find?_cons_of_neg _ (by simpa using ha)]
      exact ih h

/-- **C6.** Role-mutation rules: an admin actor may set any member's role
except moving the circle owner away from admin (denied); a moderator actor
is denied whenever the target currently is an admin or moderator or the
requested role is admin or moderator, and otherwise succeeds; a plain member
actor is always denied; every permitted request leaves the target holding
the requested role. -/
theorem role_mutation_rules (actor : UserInDB) (target : UserId)
    (newRole : Role) (c : Circle) (actorRole targetRole : Role)
    (ha : roleOf c actor.id = some actorRole)
    (ht : roleOf c target = some targetRole) :
    (actorRole = .admin → target = c.owner_id → newRole ≠ .admin →
       update_circle_member_role actor target newRole c =
         .error (.forbidden "The circle owner's role cannot be changed.")) ∧
    (actorRole = .admin → (target ≠ c.owner_id ∨ newRole = .admin) →
       ∃ c', update_circle_member_role actor target newRole c = .ok c' ∧
         roleOf c' target = some newRole) ∧
    (actorRole = .moderator →
       (targetRole = .admin ∨ targetRole = .moderator ∨
        newRole = .admin ∨ newRole = .moderator) →
       update_circle_member_role actor target newRole c =
         .error (.forbidden "Moderators can only manage members.")) ∧
    (actorRole = .moderator → targetRole = .member → newRole = .member →
       ∃ c', update_circle_member_role actor target newRole c = .ok c' ∧
         roleOf c' target = some newRole) ∧
    (actorRole = .member →
       update_circle_member_role actor target newRole c =
         .error (.forbidden "You do not have permission to manage roles.")) := by
  obtain ⟨ma, hma, hra⟩ := Option.map_eq_some'.mp ha
  obtain ⟨mt, hmt, hrt⟩ := Option.map_eq_some'.mp ht
  have hbase : update_circle_member_role actor target newRole c =
      match ma.role with
      | .admin =>
        if target = c.owner_id ∧ newRole ≠ .admin then
          .error (.forbidden "The circle owner's role cannot be changed.")
        else
          .ok { c with members := setMemberRoleFirst target newRole c.members }
      | .moderator =>
        if (mt.role = .admin ∨ mt.role = .moderator) ∨
            (newRole = .admin ∨ newRole = .moderator) then
          .error (.forbidden "Moderators can only manage members.")
        else
          .ok { c with members := setMemberRoleFirst target newRole c.members }
      | .member =>
        .error (.forbidden "You do not have permission to manage roles.") := by
    simp only [update_circle_member_role, get_circle_and_user_role, hma, hmt]
  have hroleGoal : roleOf
      { c with members := setMemberRoleFirst target newRole c.members } target =
      some newRole := by
    unfold roleOf
    rw [find?_setMemberRoleFirst target newRole c.members mt hmt]
    rfl
  refine ⟨?_, ?_, ?_, ?_, ?_⟩
  · intro hadm howner hne
    rw [hbase, hra, hadm]
    exact if_pos ⟨howner, hne⟩
  · intro hadm hok
    refine ⟨_, ?_, hroleGoal⟩
    rw [hbase, hra, hadm]
    refine if_neg ?_
    rintro ⟨h1, h2⟩
    rcases hok with h | h
    · exact h h1
    · exact h2 h
  · intro hmod hdeny
    rw [hbase, hra, hmod]
    refine if_pos ?_
    rw [hrt]
    tauto
  · intro hmod htm hnm
    refine ⟨_, ?_, hroleGoal⟩
    rw [hbase, hra, hmod]
    exact if_neg (by simp [hrt, htm, hnm])
  · intro hmem
    rw [hbase, hra, hmem]

/-- Witness for C6: in a circle with an admin owner and a plain member, the
admin successfully promotes the member to moderator. -/
theorem role_mutation_rules_witness :
    ∃ c', update_circle_member_role ⟨1, "alice"⟩ 2 Role.moderator
        { id := 7, name := "c", owner_id := 1, is_public := false,
          members := [⟨1, "alice", Role.admin⟩, ⟨2, "bob", Role.member⟩] } =
        .ok c' ∧
      roleOf c' 2 = some Role.moderator := by
  have h := (role_mutation_rules ⟨1, "alice"⟩ 2 Role.moderator
    { id := 7, name := "c", owner_id := 1, is_public := false,
      members := [⟨1, "alice", Role.admin⟩, ⟨2, "bob", Role.member⟩] }
    Role.admin Role.member (by decide) (by decide)).2.1
  exact h rfl (Or.inl (by decide))

theorem char_toNat_ofNat {n : Nat} (h : n < 55296) : (Char.ofNat n).toNat = n := by
  have hv : n.isValidChar := Or.inl h
  unfold Char.ofNat
  rw [dif_pos hv]
  rfl

theorem char_toLower_toNat_of_upper {c : Char}
    (h : c.toNat ≥ 65 ∧ c.toNat ≤ 90) : c.toLower.toNat = c.toNat + 32 := by
  simp only [Char.toLower]
  rw [if_pos h]
  exact char_toNat_ofNat (by omega)

theorem char_toLower_eq_self_of_not_upper {c : Char}
    (h : ¬(c.toNat ≥ 65 ∧ c.toNat ≤ 90)) : c.toLower = c := by
  simp only [Char.toLower]
  exact if_neg h

theorem char_toLower_idem (c : Char) : c.toLower.toLower = c.toLower := by
  by_cases h : c.toNat ≥ 65 ∧ c.toNat ≤ 90
  · have h1 := char_toLower_toNat_of_upper h
    exact char_toLower_eq_self_of_not_upper (by omega)
  · rw [char_toLower_eq_self_of_not_upper h, char_toLower_eq_self_of_not_upper h]

theorem pyIsSpace_eq_false_of_ge {d : Char} (hd : 65 ≤ d.toNat) :
    pyIsSpace d = false := by
  unfold pyIsSpace
  simp only [Bool.or_eq_false_iff, decide_eq_false_iff_not]
  omega

theorem pyIsSpace_toLower (c : Char) : pyIsSpace c.toLower = pyIsSpace c := by
  by_cases h : c.toNat ≥ 65 ∧ c.toNat ≤ 90
  · have h1 := char_toLower_toNat_of_upper h
    rw [pyIsSpace_eq_false_of_ge (by omega : 65 ≤ c.toLower.toNat),
        pyIsSpace_eq_false_of_ge (by omega : 65 ≤ c.toNat)]
  · rw [char_toLower_eq_self_of_not_upper h]

theorem pyLower_idem (s : PyStr) : pyLower (pyLower s) = pyLower s := by
  unfold pyLower
  rw [List.map_map]
  exact List.map_congr_left (fun c _ => char_toLower_idem c)

theorem pyStrip_pyLower (s : PyStr) : pyStrip (pyLower s) = pyLower (pyStrip s) := by
  have hcomp : (pyIsSpace ∘ Char.toLower) = pyIsSpace := funext pyIsSpace_toLower
  unfold pyStrip pyLower
  rw [List.dropWhile_map, hcomp, ← List.map_reverse, List.dropWhile_map, hcomp,
      ← List.map_reverse]

theorem dropWhile_eq_self_of_head {α : Type} {p : α → Bool} {l : List α}
    (h : ∀ a t, l = a :: t → p a = false) : l.dropWhile p = l := by
  cases l with
  | nil => rfl
  | cons a t => rw [List.dropWhile_cons_of_neg (by simp [h a t rfl])]

theorem dropWhile_twice {α : Type} (p : α → Bool) (l : List α) :
    (l.dropWhile p).dropWhile p = l.dropWhile p := by
  apply dropWhile_eq_self_of_head
  intro a t hat
  have hne : l.dropWhile p ≠ [] := by rw [hat]; simp
  have h := List.head_dropWhile_not p l hne
  simp only [hat, List.head_cons] at h
  exact h

theorem head_pyStrip_not_space (s : PyStr) (a : Char) (t : PyStr)
    (h : pyStrip s = a :: t) : pyIsSpace a = false := by
  have hsuf : (s.dropWhile pyIsSpace).reverse.dropWhile pyIsSpace <:+
      (s.dropWhile pyIsSpace).reverse := List.dropWhile_suffix _
  have hpre : pyStrip s <+: s.dropWhile pyIsSpace :=
    List.reverse_suffix.mp (by simpa [pyStrip] using hsuf)
  obtain ⟨rest, hrest⟩ := hpre
  rw [h] at hrest
  have hne : s.dropWhile pyIsSpace ≠ [] := by rw [← hrest]; simp
  have hh := List.head_dropWhile_not pyIsSpace s hne
  simp only [← hrest, List.cons_append, List.head_cons] at hh
  exact hh

theorem pyStrip_idem (s : PyStr) : pyStrip (pyStrip s) = pyStrip s := by
  have hA : (pyStrip s).dropWhile pyIsSpace = pyStrip s :=
    dropWhile_eq_self_of_head (fun a t hat => head_pyStrip_not_space s a t hat)
  show (((pyStrip s).dropWhile pyIsSpace).reverse.dropWhile pyIsSpace).reverse
      = pyStrip s
  rw [hA]
  have hB : (pyStrip s).reverse.dropWhile pyIsSpace = (pyStrip s).reverse := by
    have h1 : (pyStrip s).reverse =
        (s.dropWhile pyIsSpace).reverse.dropWhile pyIsSpace := by
      unfold pyStrip
      rw [List.reverse_reverse]
    rw [h1, dropWhile_twice]
  rw [hB, List.reverse_reverse]

theorem map_eq_self_of_fix {α : Type} {f : α → α} {l : List α}
    (h : ∀ a ∈ l, f a = a) : l.map f = l := by
  induction l with
  | nil => rfl
  | cons a t ih =>
    simp only [List.map_cons]
    rw [h a (by simp), ih (fun b hb => h b (by simp [hb]))]

theorem normalizeTags_mem_fix {l : List PyStr} {s : PyStr}
    (hs : s ∈ normalizeTags l) :
    (!(pyStrip s).isEmpty) = true ∧ pyLower (pyStrip s) = s := by
  have h1 : s ∈ ((l.filter (fun t => !(pyStrip t).isEmpty)).map
      (fun t => pyLower (pyStrip t))).dedup :=
    (List.perm_insertionSort _ _).mem_iff.mp hs
  have h2 := List.mem_dedup.mp h1
  obtain ⟨t, ht, rfl⟩ := List.mem_map.mp h2
  have ht2 := (List.mem_filter.mp ht).2
  have hstrip : pyStrip (pyLower (pyStrip t)) = pyLower (pyStrip t) := by
    rw [pyStrip_pyLower, pyStrip_idem]
  constructor
  · rw [hstrip]
    simp only [pyLower, Bool.not_eq_eq_eq_not, Bool.not_true, List.isEmpty_eq_false,
      ne_eq, List.map_eq_nil_iff] at ht2 ⊢
    exact ht2
  · rw [hstrip, pyLower_idem]

theorem normalizeTags_eq_self {l : List PyStr}
    (hfix : ∀ s ∈ l, (!(pyStrip s).isEmpty) = true ∧ pyLower (pyStrip s) = s)
    (hnd : l.Nodup) (hsort : l.Sorted (· ≤ ·)) : normalizeTags l = l := by
  unfold normalizeTags
  rw [List.filter_eq_self.mpr (fun a ha => (hfix a ha).1),
      map_eq_self_of_fix (fun a ha => (hfix a ha).2),
      hnd.dedup]
  exact hsort.insertionSort_eq

theorem normalizeTags_idem (l : List PyStr) :
    normalizeTags (normalizeTags l) = normalizeTags l := by
  apply normalizeTags_eq_self
  · intro s hs
    exact normalizeTags_mem_fix hs
  · exact ((List.perm_insertionSort _ _).nodup_iff).mpr (List.nodup_dedup _)
  · exact List.sorted_insertionSort _ _

/-- **C5.** The stored tag list of an accepted submission is the
trim/lowercase/drop-empty/dedup/sort canonicalization of the submitted
tags; this canonicalization is idempotent, and the input
`["A", "a", " b "]` yields `["a", "b"]`. -/
theorem tag_canonicalization (p q : PostCreate) (tags : List PyStr) :
    (validate_post_content p = .ok q → q.tags = normalizeTags p.tags) ∧
    normalizeTags (normalizeTags tags) = normalizeTags tags ∧
    normalizeTags [['A'], ['a'], [' ', 'b', ' ']] = [['a'], ['b']] := by
  refine ⟨?_, normalizeTags_idem tags, by decide⟩
  intro h
  unfold validate_post_content at h
  repeat' split at h
  all_goals simp_all
  all_goals exact (congrArg PostCreate.tags h.symm)

/-- Witness for C5: a concrete standard post submission whose tags are
stored canonicalized. -/
theorem tag_canonicalization_witness :
    ({ post_type := .standard, text := some "hi",
       tags := [['a'], ['b']] } : PostCreate).tags =
      normalizeTags [['A'], ['a'], [' ', 'b', ' ']] :=
  (tag_canonicalization
    { post_type := .standard, text := some "hi",
      tags := [['A'], ['a'], [' ', 'b', ' ']] }
    { post_type := .standard, text := some "hi",
      tags := [['a'], ['b']] } []).1 rfl

/-- **C7.** The content variant validator rejects a `standard` submission
exactly when both the free text and the link are absent (Python-falsy),
and rejects a `poll` submission exactly when the poll payload is missing
or the duration is missing or not a positive integer; a submission passing
its type's rule is accepted. -/
theorem content_variant_rules (p : PostCreate) (_hpoll : pydanticPollValid p) :
    (p.post_type = .standard →
      ((∃ msg, validate_post_content p = .error msg) ↔
        (optStrFalsy p.text = true ∧ optStrFalsy p.link = true))) ∧
    (p.post_type = .poll →
      ((∃ msg, validate_post_content p = .error msg) ↔
        (p.poll_data = none ∨ p.poll_duration_hours = none ∨
         ∃ d, p.poll_duration_hours = some d ∧ d ≤ 0))) := by
  constructor
  · intro hstd
    by_cases ht : optStrFalsy p.text = true
    · by_cases hl : optStrFalsy p.link = true
      · simp [validate_post_content, hstd, ht, hl]
      · simp [validate_post_content, hstd, ht, hl]
    · simp [validate_post_content, hstd, ht]
  · intro hp
    cases hpd : p.poll_data with
    | none => simp [validate_post_content, hp, hpd]
    | some pd =>
      cases hdur : p.poll_duration_hours with
      | none => simp [validate_post_content, hp, hpd, hdur, pollDurationInvalid]
      | some d =>
        by_cases hd : d ≤ 0
        · simp [validate_post_content, hp, hpd, hdur, pollDurationInvalid, hd]
        · simp [validate_post_content, hp, hpd, hdur, pollDurationInvalid, hd]

/-- Witness for C7: a poll submission with a well-formed payload and a
positive duration is accepted, and one with a non-positive duration is
rejected. -/
theorem content_variant_rules_witness :
    ¬((∃ msg, validate_post_content
        { post_type := .poll,
          poll_data := some { question := "q", options := [⟨"a"⟩, ⟨"b"⟩] },
          poll_duration_hours := some 5 } = .error msg)) := by
  have h := (content_variant_rules
    { post_type := .poll,
      poll_data := some { question := "q", options := [⟨"a"⟩, ⟨"b"⟩] },
      poll_duration_hours := some 5 }
    (by
      intro pd hpd
      cases hpd
      exact ⟨by decide, by decide, by decide⟩)).2 rfl
  rw [h]
  rintro (h1 | h2 | ⟨d, hd, hle⟩)
  · cases h1
  · cases h2
  · cases hd
    omega

theorem not_mem_pullVotes (uid : UserId) (options : List PollOption) :
    ∀ o ∈ pullVotes uid options, uid ∉ o.votes := by
  intro o ho
  obtain ⟨o', _, rfl⟩ := List.mem_map.mp ho
  intro hmem
  simp [List.mem_filter] at hmem

theorem length_pullVotes (uid : UserId) (options : List PollOption) :
    (pullVotes uid options).length = options.length :=
  List.length_map _ _

theorem length_addVoteAt (uid : UserId) (idx : Nat) (l : List PollOption) :
    (addVoteAt uid idx l).length = l.length := by
  induction l generalizing idx with
  | nil => cases idx <;> rfl
  | cons o os ih =>
    cases idx with
    | zero => simp [addVoteAt]
    | succ n => simp [addVoteAt, ih]

theorem addVoteAt_mem_iff (uid : UserId) (idx : Nat) (l : List PollOption)
    (hnm : ∀ o ∈ l, uid ∉ o.votes) (hidx : idx < l.length) :
    ∀ j (hj : j < (addVoteAt uid idx l).length),
      (uid ∈ ((addVoteAt uid idx l).get ⟨j, hj⟩).votes ↔ j = idx) := by
  induction l generalizing idx with
  | nil => simp at hidx
  | cons o os ih =>
    cases idx with
    | zero =>
      intro j hj
      cases j with
      | zero =>
        simp only [addVoteAt, List.get_cons_zero]
        have hno : uid ∉ o.votes := hnm o (by simp)
        rw [if_neg hno]
        simp
      | succ j' =>
        simp only [addVoteAt, List.get_cons_succ]
        have hj' : j' < os.length := by
          have := hj
          simp [addVoteAt] at this
          omega
        have hno : uid ∉ (os.get ⟨j', hj'⟩).votes :=
          hnm _ (List.mem_cons_of_mem o (os.get_mem _ _))
        constructor
        · intro hc
          exact absurd hc hno
        · intro hc
          cases hc
    | succ n =>
      intro j hj
      cases j with
      | zero =>
        simp only [addVoteAt, List.get_cons_zero]
        have hno : uid ∉ o.votes := hnm o (by simp)
        simp [hno]
      | succ j' =>
        simp only [addVoteAt, List.get_cons_succ]
        have hj' : j' < (addVoteAt uid n os).length := by
          have := hj
          simp [addVoteAt] at this
          rw [length_addVoteAt] at this ⊢
          omega
        have := ih n (fun o ho => hnm o (List.mem_cons_of_mem _ ho))
          (by simpa using Nat.lt_of_succ_lt_succ hidx) j' hj'
        rw [this]
        omega

theorem vote_on_poll_ok_inv (now : Time) (u : UserInDB) (circle : Circle)
    (post : Post) (option_index : Int)
    (hok : (vote_on_poll now u circle post option_index).1 = .ok ()) :
    ∃ pd, post.content.poll_data = some pd ∧
      0 ≤ option_index ∧ option_index < pd.options.length ∧
      (vote_on_poll now u circle post option_index).2 =
        { post with content := { post.content with
            poll_data := some { pd with
              options := addVoteAt u.id option_index.toNat
                (pullVotes u.id pd.options) } } } := by
  by_cases h1 : post.content.post_type = .poll
  · cases hm : check_circle_membership u circle with
    | error e => exfalso; simp [vote_on_poll, h1, hm] at hok
    | ok c' =>
      cases hexp : post.content.expires_at with
      | some e =>
        by_cases hlt : now > e
        · exfalso; simp [vote_on_poll, h1, hm, hexp, hlt] at hok
        · cases hpd : post.content.poll_data with
          | none => exfalso; simp [vote_on_poll, h1, hm, hexp, hlt, hpd] at hok
          | some pd =>
            by_cases hb : 0 ≤ option_index ∧
                option_index < pd.options.length
            · exact ⟨pd, rfl, hb.1, hb.2,
                by simp [vote_on_poll, h1, hm, hexp, hlt, hpd, hb]⟩
            · exfalso
              simp [vote_on_poll, h1, hm, hexp, hlt, hpd, hb] at hok
      | none =>
        cases hpd : post.content.poll_data with
        | none => exfalso; simp [vote_on_poll, h1, hm, hexp, hpd] at hok
        | some pd =>
          by_cases hb : 0 ≤ option_index ∧ option_index < pd.options.length
          · exact ⟨pd, rfl, hb.1, hb.2,
              by simp [vote_on_poll, h1, hm, hexp, hpd, hb]⟩
          · exfalso
            simp [vote_on_poll, h1, hm, hexp, hpd, hb] at hok
  · exfalso; simp [vote_on_poll, h1] at hok

/-- **C2.** For every poll post, every authorized voter and every in-bounds
option index, after a single successful vote call the voter's id appears in
the chosen option's vote set and in no other option's vote set: any earlier
vote for a different option has been removed, so the voter is counted in
exactly one option. -/
theorem single_active_vote (now : Time) (u : UserInDB) (circle : Circle)
    (post : Post) (option_index : Int)
    (hok : (vote_on_poll now u circle post option_index).1 = .ok ()) :
    ∃ pd',
      ((vote_on_poll now u circle post option_index).2).content.poll_data =
        some pd' ∧
      ∀ j (hj : j < pd'.options.length),
        (u.id ∈ (pd'.options.get ⟨j, hj⟩).votes ↔ (j : Int) = option_index) := by
  obtain ⟨pd, hpd, hge, hlt, hsnd⟩ :=
    vote_on_poll_ok_inv now u circle post option_index hok
  refine ⟨{ pd with options := (addVoteAt u.id option_index.toNat
      (pullVotes u.id pd.options)) }, by rw [hsnd], ?_⟩
  intro j hj
  have hidx : option_index.toNat < (pullVotes u.id pd.options).length := by
    rw [length_pullVotes]
    omega
  have h := addVoteAt_mem_iff u.id option_index.toNat
    (pullVotes u.id pd.options) (not_mem_pullVotes u.id pd.options) hidx j hj
  rw [h]
  omega

/-- Witness for C2: in the private circle `circleAB`, member bob (id 2),
who previously voted option 0, votes option 1 on an open 2-option poll;
afterwards bob is in option 1's vote set and in no other. -/
theorem single_active_vote_witness :
    ∃ pd',
      ((vote_on_poll 50 ⟨2, "bob"⟩ circleAB pollPostVoted 1).2).content.poll_data =
        some pd' ∧
      ∀ j (hj : j < pd'.options.length),
        ((2 : UserId) ∈ (pd'.options.get ⟨j, hj⟩).votes ↔ (j : Int) = 1) :=
  single_active_vote 50 ⟨2, "bob"⟩ circleAB pollPostVoted 1 rfl

/-- **C4 (counterexample).** The claim says a vote at any time not strictly
before `expires_at` is rejected; but at the expiry instant itself
(`now = expires_at = 100`) the code accepts bob's vote and records it,
because the check rejects only when `now > expires_at`. -/
theorem vote_at_expiry_instant_accepted :
    (vote_on_poll 100 ⟨2, "bob"⟩ circleAB pollPostFresh 0).1 = .ok () ∧
    ((vote_on_poll 100 ⟨2, "bob"⟩ circleAB pollPostFresh 0).2).content.poll_data =
      some ⟨"q", [⟨"a", [2]⟩, ⟨"b", []⟩]⟩ :=
  ⟨rfl, rfl⟩

/-- **C4 (amended).** For every poll post with an expiry timestamp and
every authorized voter, a vote call made strictly after `expires_at` is
rejected with the "closed" error and the post's state is returned
unchanged (no option's vote set is modified); at `now = expires_at`
exactly the code still accepts the vote. -/
theorem vote_after_expiry_rejected (now : Time) (u : UserInDB)
    (circle : Circle) (post : Post) (idx : Int) (e : Time) (c' : Circle)
    (hpoll : post.content.post_type = .poll)
    (hmem : check_circle_membership u circle = .ok c')
    (hexp : post.content.expires_at = some e) (hgt : e < now) :
    vote_on_poll now u circle post idx =
      (.error (.forbidden
        "This poll has closed and is no longer accepting votes."), post) := by
  simp [vote_on_poll, hpoll, hmem, hexp, hgt]

/-- Witness for C4 (amended): bob votes at time 101 on the poll that
expired at time 100; the call is rejected as closed and the post is
returned unchanged. -/
theorem vote_after_expiry_rejected_witness :
    vote_on_poll 101 ⟨2, "bob"⟩ circleAB pollPostFresh 0 =
      (.error (.forbidden
        "This poll has closed and is no longer accepting votes."),
       pollPostFresh) :=
  vote_after_expiry_rejected 101 ⟨2, "bob"⟩ circleAB pollPostFresh 0 100
    circleAB rfl rfl rfl (by decide)

theorem mark_seen_step (t : Time) (u : UserInDB) (circle : Circle)
    (post : Post) (c' : Circle)
    (hmem : check_circle_membership u circle = .ok c') :
    mark_post_as_seen t u circle post =
      (.ok (), { post with seen_by_details :=
          (post.seen_by_details.filter (fun r => r.user_id ≠ u.id)) ++
            [⟨u.id, t⟩] }) := by
  have hnm : (⟨u.id, t⟩ : SeenRecord) ∉
      post.seen_by_details.filter (fun r => r.user_id ≠ u.id) := by
    intro hm
    simp [List.mem_filter] at hm
  simp [mark_post_as_seen, hmem, hnm]

/-- **C8.** Marking a post seen replaces any existing seen record for the
viewer rather than adding another: after an authorized viewer marks the
post seen at `t1` and again at a later time `t2`, `seen_by_details` holds
exactly one record for that viewer, carrying the later timestamp `t2`, and
the records of all other users are unchanged. -/
theorem mark_seen_replaces (t1 t2 : Time) (u : UserInDB) (circle : Circle)
    (post : Post) (c' : Circle)
    (hmem : check_circle_membership u circle = .ok c') (_hlt : t1 < t2) :
    (mark_post_as_seen t1 u circle post).1 = .ok () ∧
    (mark_post_as_seen t2 u circle
        (mark_post_as_seen t1 u circle post).2).1 = .ok () ∧
    ((mark_post_as_seen t2 u circle
        (mark_post_as_seen t1 u circle post).2).2).seen_by_details.filter
        (fun r => r.user_id = u.id) = [⟨u.id, t2⟩] ∧
    ((mark_post_as_seen t2 u circle
        (mark_post_as_seen t1 u circle post).2).2).seen_by_details.filter
        (fun r => r.user_id ≠ u.id) =
      post.seen_by_details.filter (fun r => r.user_id ≠ u.id) := by
  have h1 := mark_seen_step t1 u circle post c' hmem
  have h2 := mark_seen_step t2 u circle
    { post with seen_by_details :=
        (post.seen_by_details.filter (fun r => r.user_id ≠ u.id)) ++
          [⟨u.id, t1⟩] } c' hmem
  refine ⟨by rw [h1], ?_, ?_, ?_⟩
  · rw [h1]
    dsimp only
    rw [h2]
  · rw [h1]
    dsimp only
    rw [h2]
    dsimp only
    simp [List.filter_append, List.filter_filter]
  · rw [h1]
    dsimp only
    rw [h2]
    dsimp only
    simp [List.filter_append, List.filter_filter]

/-- Witness for C8: bob (id 2) marks alice's post seen at time 10 and
again at 20; afterwards exactly one record `{2, 20}` exists for bob and
the records of users 1 and 3 are untouched. -/
theorem mark_seen_replaces_witness :
    List.filter (fun r => r.user_id = 2)
      ((mark_post_as_seen 20 ⟨2, "bob"⟩ circleAB
        (mark_post_as_seen 10 ⟨2, "bob"⟩ circleAB seenPost).2).2).seen_by_details =
      [⟨2, 20⟩] :=
  (mark_seen_replaces 10 20 ⟨2, "bob"⟩ circleAB seenPost circleAB rfl
    (by decide)).2.2.1

/-- **C9.** Every successful comment creation on a post increments that
post's `comment_count` by exactly 1 and removes the post author's entry
(if any) from `seen_by_details`, leaving every other field of the post
document unchanged. -/
theorem comment_updates_post (now : Time) (u : UserInDB) (circle : Circle)
    (post : Post) (content : String) (tid : Option UserId) (com : CommentDoc)
    (hok : (create_comment_on_post now u circle post content tid).1 =
      .ok com) :
    ((create_comment_on_post now u circle post content tid).2).comment_count =
      post.comment_count + 1 ∧
    ((create_comment_on_post now u circle post content tid).2).seen_by_details =
      post.seen_by_details.filter (fun r => r.user_id ≠ post.author_id) ∧
    ((create_comment_on_post now u circle post content tid).2).id = post.id ∧
    ((create_comment_on_post now u circle post content tid).2).circle_id =
      post.circle_id ∧
    ((create_comment_on_post now u circle post content tid).2).author_id =
      post.author_id ∧
    ((create_comment_on_post now u circle post content tid).2).author_username =
      post.author_username ∧
    ((create_comment_on_post now u circle post content tid).2).content =
      post.content ∧
    ((create_comment_on_post now u circle post content tid).2).created_at =
      post.created_at ∧
    ((create_comment_on_post now u circle post content tid).2).is_chat_enabled =
      post.is_chat_enabled ∧
    ((create_comment_on_post now u circle post content tid).2).chat_participants =
      post.chat_participants ∧
    ((create_comment_on_post now u circle post content tid).2).chat_messages =
      post.chat_messages := by
  cases hm : check_circle_membership u circle with
  | error e => exfalso; simp [create_comment_on_post, hm] at hok
  | ok c' =>
    by_cases hia : u.id = post.author_id
    · cases tid with
      | none => exfalso; simp [create_comment_on_post, hm, hia] at hok
      | some t =>
        by_cases hts : t = u.id
        · exfalso; simp [create_comment_on_post, hm, hia, hts] at hok
        · have hts' : ¬t = post.author_id := by rw [← hia]; exact hts
          simp [create_comment_on_post, hm, hia, hts']
    · simp [create_comment_on_post, hm, hia]

/-- Witness for C9: bob (a non-author member) comments on alice's post;
the comment count rises from 0 to 1 and alice's seen record is removed. -/
theorem comment_updates_post_witness :
    ((create_comment_on_post 7 ⟨2, "bob"⟩ circleAB seenPost "nice"
        none).2).comment_count = seenPost.comment_count + 1 ∧
    ((create_comment_on_post 7 ⟨2, "bob"⟩ circleAB seenPost "nice"
        none).2).seen_by_details =
      seenPost.seen_by_details.filter (fun r => r.user_id ≠ seenPost.author_id) :=
  ⟨(comment_updates_post 7 ⟨2, "bob"⟩ circleAB seenPost "nice" none
      ⟨11, 1, 2, "bob", "nice", 7, 2⟩ rfl).1,
   (comment_updates_post 7 ⟨2, "bob"⟩ circleAB seenPost "nice" none
      ⟨11, 1, 2, "bob", "nice", 7, 2⟩ rfl).2.1⟩

/-- **C10.** The full member list is returned exactly to viewers whose
role in the circle is admin or moderator; a plain member, a non-member
viewer of a public circle, and an anonymous viewer of a public circle all
receive only the aggregate member count. -/
theorem circle_details_member_list (cu : Option UserInDB) (circle : Circle) :
    (∀ u r, cu = some u → roleOf circle u.id = some r →
      ((r = .admin ∨ r = .moderator) →
        get_circle_details cu circle =
          .ok (.management circle.members.length r circle.members)) ∧
      (r = .member →
        get_circle_details cu circle =
          .ok (.plain circle.members.length (some .member)))) ∧
    (circle.is_public = true → ∀ u, cu = some u →
      roleOf circle u.id = none →
      get_circle_details cu circle =
        .ok (.plain circle.members.length none)) ∧
    (circle.is_public = true → cu = none →
      get_circle_details cu circle =
        .ok (.plain circle.members.length none)) ∧
    (∀ mc r ms, get_circle_details cu circle = .ok (.management mc r ms) →
      ms = circle.members ∧ mc = circle.members.length ∧
      ∃ u, cu = some u ∧ roleOf circle u.id = some r ∧
        (r = .admin ∨ r = .moderator)) := by
  refine ⟨?_, ?_, ?_, ?_⟩
  · rintro u r rfl hr
    obtain ⟨m, hm, hmr⟩ := Option.map_eq_some'.mp hr
    constructor
    · rintro (rfl | rfl) <;> simp [get_circle_details, hm, hmr]
    · rintro rfl
      simp [get_circle_details, hm, hmr]
  · rintro hpub u rfl hnone
    have hfind : circle.members.find? (fun m => m.user_id = u.id) = none := by
      cases hf : circle.members.find? (fun m => m.user_id = u.id) with
      | none => rfl
      | some m => exfalso; rw [roleOf, hf] at hnone; cases hnone
    simp [get_circle_details, hpub, hfind]
  · rintro hpub rfl
    simp [get_circle_details, hpub]
  · intro mc r ms hok
    cases hcu : cu with
    | none =>
      subst hcu
      cases hpub : circle.is_public with
      | false => simp [get_circle_details, hpub] at hok
      | true => simp [get_circle_details, hpub] at hok
    | some u =>
      subst hcu
      cases hf : circle.members.find? (fun m => m.user_id = u.id) with
      | none =>
        cases hpub : circle.is_public with
        | false => simp [get_circle_details, hpub, hf] at hok
        | true => simp [get_circle_details, hpub, hf] at hok
      | some m =>
        cases hmr : m.role with
        | member => simp [get_circle_details, hf, hmr] at hok
        | moderator =>
          simp [get_circle_details, hf, hmr] at hok
          exact ⟨hok.2.2.symm, hok.1.symm,
            u, rfl, by rw [roleOf, hf, Option.map_some', hmr, hok.2.1],
            by rw [← hok.2.1]; exact Or.inr rfl⟩
        | admin =>
          simp [get_circle_details, hf, hmr] at hok
          exact ⟨hok.2.2.symm, hok.1.symm,
            u, rfl, by rw [roleOf, hf, Option.map_some', hmr, hok.2.1],
            by rw [← hok.2.1]; exact Or.inl rfl⟩

/-- Witness for C10: in `circleAB`, the admin owner alice sees the full
member list, while plain member bob receives only the count. -/
theorem circle_details_member_list_witness :
    get_circle_details (some ⟨1, "alice"⟩) circleAB =
      .ok (.management circleAB.members.length Role.admin circleAB.members) ∧
    get_circle_details (some ⟨2, "bob"⟩) circleAB =
      .ok (.plain circleAB.members.length (some Role.member)) :=
  ⟨((circle_details_member_list (some ⟨1, "alice"⟩) circleAB).1
      ⟨1, "alice"⟩ Role.admin rfl rfl).1 (Or.inl rfl),
   ((circle_details_member_list (some ⟨2, "bob"⟩) circleAB).1
      ⟨2, "bob"⟩ Role.member rfl rfl).2 rfl⟩

/-- **C1 (code bug).** On an anonymous read of a public circle's feed the
viewer-gated `$addFields` stage that scopes `chat_participants` (with its
`$$REMOVE` branch) is skipped entirely, and the final `$project` does not
strip the field, so the stored participant list leaks to the anonymous
viewer; by contrast, a logged-in member who is not a chat participant
receives the same post with the field omitted, which is what the
specification requires in both cases. -/
theorem anonymous_feed_leaks_chat_participants :
    ((get_circle_feed 0 [⟨1, "alice"⟩, ⟨2, "bob"⟩] [chatPost] publicCircle
        0 10 none none).toOption.map
      (fun r => r.1.map (fun p => p.chat_participants))) =
      some [some [⟨1, "alice"⟩]] ∧
    ((get_circle_feed 0 [⟨1, "alice"⟩, ⟨2, "bob"⟩] [chatPost] publicCircle
        0 10 none (some ⟨2, "bob"⟩)).toOption.map
      (fun r => r.1.map (fun p => p.chat_participants))) =
      some [none] :=
  ⟨rfl, rfl⟩

end Circles
